import Mathlib

/-!
Verification of the company-data CRUD pipeline of this repository:
request validation, duplicate checking, filter construction and the
response envelope, embedded from the TypeScript controllers
(`company.controller.ts`), the Mongoose model (`company.model.ts`),
the response utilities (`apiResponse`) and the error middleware.

The persistence layer is modelled as an explicit association list from
generated ids to records; each HTTP operation becomes a function from a
request and a store to a result together with the store after the call.
-/

namespace CompanyData

/-- A JSON-style value appearing in a request-body field. -/
inductive JsVal where
  | str (s : String)
  | num (n : Int)
  | bool (b : Bool)
  | null
  | arr (xs : List String)
  deriving DecidableEq

/-- A stored company record (`companySchema` in `company.model.ts`).
`createdAt` is the store-assigned timestamp (`timestamps: true`). -/
structure Company where
  name : String
  description : Option String
  industry : String
  foundedYear : Option Int
  location : List String
  website : Option String
  email : String
  phone : Option String
  employees : Option Int
  isActive : Bool
  logo : Option String
  headquarters : Option String
  revenue : Option Int
  createdAt : Int
  deriving DecidableEq

/-- The persistent store: generated id ↦ record. -/
abbrev Store := List (Nat × Company)

/-- `ApiError` from `utils/apiResponse.ts`: an HTTP status code, a
message, and an optional ordered list of error strings. -/
structure ApiError where
  statusCode : Nat
  message : String
  errors : Option (List String)
  deriving DecidableEq

/-- `ApiError.badRequest(message, errors)`: a 400 error. -/
def ApiError.badRequest (message : String) (errors : Option (List String)) : ApiError :=
  { statusCode := 400, message := message, errors := errors }

/-- `industryEnum` from `company.model.ts`. -/
def industryEnum : List String :=
  ["Technology", "Healthcare", "Manufacturing", "Financial Services", "Retail",
   "Education", "Construction", "Transportation", "Entertainment", "Other"]

/-- The body of a `POST /companies` request (fields may be absent). -/
structure CreateBody where
  name : Option String
  description : Option String
  industry : Option String
  foundedYear : Option Int
  location : Option (List JsVal)
  website : Option String
  email : Option String
  phone : Option String
  employees : Option Int
  logo : Option String
  headquarters : Option String
  revenue : Option Int
  deriving DecidableEq

/-- JavaScript `String.prototype.trim`: strip leading and trailing
whitespace. -/
def jsTrim (s : String) : String :=
  String.mk (((s.toList.dropWhile Char.isWhitespace).reverse.dropWhile Char.isWhitespace).reverse)

/-- `!x?.trim()` for an optional string field: truthy exactly when the
field is absent or trims to the empty string. -/
def strBlank : Option String → Bool
  | none => true
  | some s => jsTrim s == ""

/-- `!x` for an optional string field: truthy exactly when the field is
absent or is the empty string (JS falsiness of `""`). -/
def strFalsy : Option String → Bool
  | none => true
  | some s => s == ""

/-- The `location` checks of `createCompany`:
`!Array.isArray(location) || location.length === 0` pushes one message,
otherwise a non-string or blank element pushes the other. -/
def locationErrors (location : Option (List JsVal)) : List String :=
  match location with
  | none => ["At least one location is required"]
  | some l =>
    if l.length = 0 then
      ["At least one location is required"]
    else if l.any (fun loc =>
        match loc with
        | JsVal.str s => (jsTrim s).length == 0
        | _ => true) then
      ["Each location must be a non-empty string"]
    else []

/-- The error list accumulated by the `errors.push` sequence at the top
of `createCompany` (lines 95–105 of `company.controller.ts`). -/
def createValidationErrors (b : CreateBody) : List String :=
  (if strBlank b.name then ["Name is required"] else []) ++
  (if strBlank b.email then ["Email is required"] else []) ++
  (if strFalsy b.industry then ["Industry is required"] else []) ++
  locationErrors b.location

/-- `Company.findOne({ $or: [{name}, {email}] })`: the first stored
record whose `name` or `email` equals the given values exactly. -/
def findDuplicate (store : Store) (name email : String) : Option Company :=
  (store.map Prod.snd).find? (fun c => c.name == name || c.email == email)

/-- The string stored for a location entry: after validation every
entry is a `JsVal.str`; other shapes never reach the insert. -/
def locString : JsVal → String
  | JsVal.str s => s
  | _ => ""

/-- The record inserted by `Company.create({...})` for a validated
body, with the store-assigned `createdAt` timestamp. -/
def newCompanyOf (b : CreateBody) (now : Int) : Company :=
  { name := b.name.getD ""
    description := b.description
    industry := b.industry.getD ""
    foundedYear := b.foundedYear
    location := (b.location.getD []).map locString
    website := b.website
    email := b.email.getD ""
    phone := b.phone
    employees := b.employees
    isActive := true
    logo := b.logo
    headquarters := b.headquarters
    revenue := b.revenue
    createdAt := now }

/-- `createCompany` (`company.controller.ts`, lines 80–152): collect
the field-shape violations; if any, throw `badRequest('Missing fields',
errors)`; otherwise check for a duplicate `name`/`email` and throw a
400 conflict; otherwise check the industry enum; otherwise insert.
The returned store is the store after the call. -/
def createCompany (b : CreateBody) (now : Int) (freshId : Nat) (store : Store) :
    Except ApiError Company × Store :=
  let errors := createValidationErrors b
  if 0 < errors.length then
    (Except.error (ApiError.badRequest "Missing fields" (some errors)), store)
  else
    match findDuplicate store (b.name.getD "") (b.email.getD "") with
    | some _ =>
      (Except.error { statusCode := 400, message := "Already existing company", errors := none },
        store)
    | none =>
      if ¬ (b.industry.getD "") ∈ industryEnum then
        (Except.error (ApiError.badRequest
          ("Invalid industry. Allowed values are: " ++ String.intercalate ", " industryEnum)
          none), store)
      else
        let c := newCompanyOf b now
        (Except.ok c, store ++ [(freshId, c)])

/-- `getCompanyAge` (`company.model.ts`, lines 216–219):
`if (!this.foundedYear) return 0;` then current year minus it.
`!foundedYear` is truthy for an absent field and for the number 0. -/
def getCompanyAge (currentYear : Int) (c : Company) : Int :=
  match c.foundedYear with
  | none => 0
  | some y => if y = 0 then 0 else currentYear - y

/-- `getEmployeeRange` / `employeeRange` virtual (`company.model.ts`).
`!this.employees` is truthy for an absent field and for 0. -/
def getEmployeeRange (c : Company) : String :=
  match c.employees with
  | none => "Not specified"
  | some e =>
    if e = 0 then "Not specified"
    else if e < 10 then "1-10"
    else if e < 50 then "11-50"
    else if e < 200 then "51-200"
    else if e < 1000 then "201-1000"
    else "1000+"

/-- `findById` on the modelled store. -/
def findById (store : Store) (id : Nat) : Option Company :=
  (store.find? (fun p => p.1 == id)).map Prod.snd

/-! ### Update operation -/

/-- A PATCH body: an object, i.e. a key/value list.  A JSON-parsed body
never carries the value `undefined`, so `updates[field] !== undefined`
is exactly "the key is present". -/
abbrev UpdateBody := List (String × JsVal)

/-- `allowedFields` of `updateCompany` (`company.controller.ts` line 303). -/
def allowedFields : List String :=
  ["logo", "description", "location", "phone", "isActive"]

/-- `updates[field]` for an object modelled as a key/value list. -/
def bodyGet (body : UpdateBody) (field : String) : Option JsVal :=
  (body.find? (fun p => p.1 == field)).map Prod.snd

/-- The `updateData` object built by the `for (const field of
allowedFields)` loop: every allow-listed key whose value in the body is
not `undefined`, with that value. -/
def buildUpdateData (body : UpdateBody) : List (String × JsVal) :=
  allowedFields.filterMap (fun field => (bodyGet body field).map (fun v => (field, v)))

/-- Optional-string content of an updated field value. -/
def jsOptStr : JsVal → Option String
  | JsVal.str s => some s
  | _ => none

/-- Applying one `updateData` entry to a record (the store's
partial-field update by id). -/
def applyField (c : Company) : String × JsVal → Company
  | ("logo", v) => { c with logo := jsOptStr v }
  | ("description", v) => { c with description := jsOptStr v }
  | ("location", JsVal.arr xs) => { c with location := xs }
  | ("location", _) => c
  | ("phone", v) => { c with phone := jsOptStr v }
  | ("isActive", JsVal.bool b) => { c with isActive := b }
  | ("isActive", _) => c
  | (_, _) => c

/-- `updateCompany` (`company.controller.ts`, lines 299–325): filter
the body through the allow-list; with nothing retained respond
`400 No fields provided to update`; otherwise `findByIdAndUpdate`,
responding `404 Company not found` for an unknown id. -/
def updateCompany (id : Nat) (body : UpdateBody) (store : Store) :
    Except (Nat × String) Company × Store :=
  let updateData := buildUpdateData body
  if updateData.length = 0 then
    (Except.error (400, "No fields provided to update"), store)
  else
    match findById store id with
    | none => (Except.error (404, "Company not found"), store)
    | some c =>
      let c' := updateData.foldl applyField c
      (Except.ok c', store.map (fun p => if p.1 == id then (p.1, c') else p))

/-! ### Case-insensitive substring matching

`{ $regex: q, $options: 'i' }` and `s.match(new RegExp(q, 'i'))` with a
plain-text query: the query occurs in the subject up to case. -/

/-- The needle is an initial run of the haystack. -/
def leadsWith : List Char → List Char → Bool
  | [], _ => true
  | _ :: _, [] => false
  | a :: as, b :: bs => a == b && leadsWith as bs

/-- The needle occurs contiguously somewhere in the haystack. -/
def occursIn (needle : List Char) : List Char → Bool
  | [] => leadsWith needle []
  | c :: rest => leadsWith needle (c :: rest) || occursIn needle rest

/-- Case-insensitive substring test. -/
def ciMatch (q s : String) : Bool :=
  occursIn (q.toList.map Char.toLower) (s.toList.map Char.toLower)

/-! ### Search operation -/

/-- The raw query parameters of `GET /companies/search`; `none` is an
absent parameter, `some s` a parameter given as the string `s`. -/
structure SearchQuery where
  name : Option String
  location : Option String
  industry : Option String
  isActive : Option String
  employees : Option String
  createdAt : Option String
  foundedYear : Option String
  deriving DecidableEq

/-- JS truthiness of a possibly-absent string parameter:
present and not the empty string. -/
def truthy : Option String → Bool
  | none => false
  | some s => !(s == "")

/-- `Number(s)` / `new Date(s)` on a query parameter, as an optional
integer: `none` models `NaN` (or an invalid date). -/
def jsNumber (s : String) : Option Int :=
  s.toInt?

/-- The store filter object assembled by `searchCompanies`
(`company.controller.ts`, lines 474–482).  A numeric bound of `none`
models a `NaN` bound, which no stored value satisfies. -/
structure Filters where
  name : Option String
  location : Option String
  industry : Option String
  isActive : Option Bool
  employees : Option (Option Int)
  createdAt : Option (Option Int)
  foundedYear : Option (Option Int)
  deriving DecidableEq

/-- The `if (param) filters.x = ...` chain of `searchCompanies`:
`name`/`location` become case-insensitive regexes, `industry` an exact
value, `isActive` (checked against `undefined`, not truthiness) the
boolean `value === 'true'`, `employees` a `$gte` bound, `createdAt` a
`$gte` date, `foundedYear` an exact number. -/
def buildFilters (q : SearchQuery) : Filters :=
  { name := if truthy q.name then q.name else none
    location := if truthy q.location then q.location else none
    industry := if truthy q.industry then q.industry else none
    isActive :=
      match q.isActive with
      | none => none
      | some s => some (s == "true")
    employees := if truthy q.employees then some (jsNumber ((q.employees).getD "")) else none
    createdAt := if truthy q.createdAt then some (jsNumber ((q.createdAt).getD "")) else none
    foundedYear := if truthy q.foundedYear then some (jsNumber ((q.foundedYear).getD "")) else none }

/-- `{ $regex: p, $options: 'i' }` against a string field; an omitted
filter entry constrains nothing. -/
def regexTest (pat : Option String) (s : String) : Bool :=
  match pat with
  | none => true
  | some p => ciMatch p s

/-- `{ $regex: p, $options: 'i' }` against an array field: MongoDB
matches when any element matches. -/
def regexAnyTest (pat : Option String) (xs : List String) : Bool :=
  match pat with
  | none => true
  | some p => xs.any (fun x => ciMatch p x)

/-- An exact string-equality filter entry. -/
def eqTest (v : Option String) (s : String) : Bool :=
  match v with
  | none => true
  | some w => s == w

/-- An exact boolean-equality filter entry. -/
def boolTest (v : Option Bool) (b : Bool) : Bool :=
  match v with
  | none => true
  | some w => b == w

/-- `{ $gte: n }` against an optional stored number: a record without
the field never matches, and a `NaN` bound matches nothing. -/
def gteTest (bound : Option (Option Int)) (v : Option Int) : Bool :=
  match bound with
  | none => true
  | some b =>
    match b, v with
    | some n, some e => decide (n ≤ e)
    | _, _ => false

/-- `{ $gte: d }` against an always-present stored number
(`createdAt`); an invalid date bound matches nothing. -/
def gteValTest (bound : Option (Option Int)) (v : Int) : Bool :=
  match bound with
  | none => true
  | some b =>
    match b with
    | some n => decide (n ≤ v)
    | none => false

/-- Exact numeric equality against an optional stored number. -/
def eqNumTest (bound : Option (Option Int)) (v : Option Int) : Bool :=
  match bound with
  | none => true
  | some b =>
    match b, v with
    | some n, some y => y == n
    | _, _ => false

/-- Whether a record satisfies a filter object: the conjunction of the
tests for the entries the filter carries. -/
def matchesFilters (f : Filters) (c : Company) : Bool :=
  regexTest f.name c.name &&
  regexAnyTest f.location c.location &&
  eqTest f.industry c.industry &&
  boolTest f.isActive c.isActive &&
  gteTest f.employees c.employees &&
  gteValTest f.createdAt c.createdAt &&
  eqNumTest f.foundedYear c.foundedYear

/-- `searchCompanies` (`company.controller.ts`, lines 471–490):
`Company.find(filters)` over the store. -/
def searchCompanies (q : SearchQuery) (store : Store) : List Company :=
  (store.map Prod.snd).filter (fun c => matchesFilters (buildFilters q) c)

/-- The claim's reading of the search filter, stated from the spec's
words: the conjunction of exactly the constraints for the query
parameters *present*, with `industry` exact equality and `employees` an
at-least bound — with no regard to whether the parameter value is the
empty string. -/
def specFilterOfPresent (q : SearchQuery) (c : Company) : Bool :=
  regexTest q.name c.name &&
  regexAnyTest q.location c.location &&
  eqTest q.industry c.industry &&
  boolTest (q.isActive.map (fun s => s == "true")) c.isActive &&
  gteTest (q.employees.map jsNumber) c.employees &&
  gteValTest (q.createdAt.map jsNumber) c.createdAt &&
  eqNumTest (q.foundedYear.map jsNumber) c.foundedYear

/-- A parameter that is present with a non-empty (truthy) value; an
absent or empty-string parameter is dropped. -/
def presentNonEmpty : Option String → Option String
  | none => none
  | some s => if s == "" then none else some s

/-- The amended reading of the search filter: the conjunction of
exactly the constraints for the query parameters present *with a
non-empty value* (`isActive` alone is keyed on mere presence). -/
def truthyPresentFilter (q : SearchQuery) (c : Company) : Bool :=
  regexTest (presentNonEmpty q.name) c.name &&
  regexAnyTest (presentNonEmpty q.location) c.location &&
  eqTest (presentNonEmpty q.industry) c.industry &&
  boolTest (q.isActive.map (fun s => s == "true")) c.isActive &&
  gteTest ((presentNonEmpty q.employees).map jsNumber) c.employees &&
  gteValTest ((presentNonEmpty q.createdAt).map jsNumber) c.createdAt &&
  eqNumTest ((presentNonEmpty q.foundedYear).map jsNumber) c.foundedYear

/-! ### Suggestion operation

`searchSuggestion` uses the raw query as a regular-expression pattern:
`{ $regex: q, $options: 'i' }` in the fetch and
`s.match(new RegExp(q, 'i'))` on each field.  The embedding models the
regex fragment of literal characters plus the `.` wildcard exactly;
a pattern holding any other special character is outside the model
(`parsePattern` returns `none`) and nothing is claimed about it. -/

/-- One token of a modelled regex pattern: a literal character or the
`.` wildcard. -/
inductive RChar where
  | lit (c : Char)
  | dot
  deriving DecidableEq

/-- The characters with a special meaning in a JS regex pattern. -/
def regexSpecials : List Char :=
  ['\\', '^', '$', '.', '*', '+', '?', '(', ')', '[', ']', '{', '}', '|']

/-- Tokenize a pattern within the modelled fragment: `.` becomes the
wildcard, a non-special character a literal, and any other special
character puts the pattern outside the model. -/
def parseTokens : List Char → Option (List RChar)
  | [] => some []
  | c :: cs =>
    if c = '.' then (parseTokens cs).map (fun ts => RChar.dot :: ts)
    else if c ∈ regexSpecials then none
    else (parseTokens cs).map (fun ts => RChar.lit c :: ts)

/-- `new RegExp(q, 'i')` for a pattern in the modelled fragment. -/
def parsePattern (q : String) : Option (List RChar) :=
  parseTokens q.toList

/-- One pattern token against one subject character, under the `i`
flag; `.` matches any character. -/
def rcharMatch (t : RChar) (c : Char) : Bool :=
  match t with
  | RChar.lit a => a.toLower == c.toLower
  | RChar.dot => true

/-- The pattern matches an initial run of the subject. -/
def leadsWithR : List RChar → List Char → Bool
  | [], _ => true
  | _ :: _, [] => false
  | t :: ts, c :: cs => rcharMatch t c && leadsWithR ts cs

/-- Unanchored regex search: the pattern matches somewhere in the
subject. -/
def occursInR (p : List RChar) : List Char → Bool
  | [] => leadsWithR p []
  | c :: rest => leadsWithR p (c :: rest) || occursInR p rest

/-- `re.test`-style match of a modelled pattern against a string. -/
def regexIMatch (p : List RChar) (s : String) : Bool :=
  occursInR p s.toList

/-- A query that is plain text: no character with a special regex
meaning (so `new RegExp(q, 'i')` matches exactly the case-insensitive
substring occurrences of `q`). -/
def literalPattern (q : String) : Bool :=
  q.toList.all (fun c => !(regexSpecials.contains c))

/-- The `$or` fetch of `searchSuggestion` with a given field matcher:
the name, the industry, or some location entry matches. -/
def recordMatchesBy (test : String → Bool) (c : Company) : Bool :=
  test c.name || test c.industry || c.location.any test

/-- `Set.prototype.add`: append unless already present. -/
def setAdd (acc : List String) (s : String) : List String :=
  if s ∈ acc then acc else acc ++ [s]

/-- One record's contribution inside the `suggestions.forEach` loop of
`searchSuggestion`: add the name, the industry, and each location entry
that itself matches. -/
def addSuggestionsBy (test : String → Bool) (acc : List String) (c : Company) : List String :=
  let acc1 := if test c.name then setAdd acc c.name else acc
  let acc2 := if test c.industry then setAdd acc1 c.industry else acc1
  c.location.foldl (fun a loc => if test loc then setAdd a loc else a) acc2

/-- The body of `searchSuggestion` (`company.controller.ts`, lines
385–415) over a field matcher: fetch the records with some matching
field, then collect the individual field values that match into a
`Set`, returned as `Array.from(result)`. -/
def collectSuggestions (test : String → Bool) (store : Store) : List String :=
  let suggestions := (store.map Prod.snd).filter (fun c => recordMatchesBy test c)
  suggestions.foldl (fun acc c => addSuggestionsBy test acc c) []

/-- `searchSuggestion` with the query used as a regex pattern, as the
code does; `none` when the pattern lies outside the modelled regex
fragment. -/
def searchSuggestion (q : String) (store : Store) : Option (List String) :=
  (parsePattern q).map (fun p => collectSuggestions (regexIMatch p) store)

/-- The claim's reading of the suggestion operation, stated from the
spec's words: collect the field values that match the query as a
case-insensitive *substring*. -/
def specSearchSuggestion (q : String) (store : Store) : List String :=
  collectSuggestions (ciMatch q) store

/-! ### Response bodies and the envelope -/

/-- A JSON document, for the bodies the handlers put on the wire. -/
inductive Json where
  | str (s : String)
  | num (n : Int)
  | bool (b : Bool)
  | null
  | arr (xs : List Json)
  | obj (fields : List (String × Json))

/-- Whether a JSON document is an object carrying the given key. -/
def Json.hasKey : Json → String → Bool
  | Json.obj fields, k => fields.any (fun p => p.1 == k)
  | _, _ => false

/-- The envelope shape of §4.1: an object with at least the fields
`success`, `statusCode`, `message` and `timestamp`. -/
def isEnvelopeShape (j : Json) : Bool :=
  j.hasKey "success" && j.hasKey "statusCode" && j.hasKey "message" && j.hasKey "timestamp"

/-- `ApiResponse` from `utils/apiResponse.ts`: the success-side
envelope structure.  The timestamp is the construction-time clock
reading, passed in explicitly. -/
structure ApiResponse where
  success : Bool
  statusCode : Nat
  message : String
  data : Option Json
  timestamp : String
  path : Option String

/-- The `ApiResponse` constructor (`apiResponse`, lines 537–544):
`success` is `statusCode < 400`, the other arguments are carried. -/
def ApiResponse.make (statusCode : Nat) (message : String) (data : Option Json)
    (timestamp : String) (path : Option String) : ApiResponse :=
  { success := statusCode < 400
    statusCode := statusCode
    message := message
    data := data
    timestamp := timestamp
    path := path }

/-- An optional string member of a JSON object (absent when the source
value is `undefined`, as `JSON.stringify` drops it). -/
def optStrField (k : String) : Option String → List (String × Json)
  | none => []
  | some s => [(k, Json.str s)]

/-- An optional numeric member of a JSON object. -/
def optNumField (k : String) : Option Int → List (String × Json)
  | none => []
  | some n => [(k, Json.num n)]

/-- A string-array member of a JSON object. -/
def strArrJson (xs : List String) : Json :=
  Json.arr (xs.map Json.str)

/-- The serialized members of a full company document
(`company.toObject()`). -/
def companyFields (id : Nat) (c : Company) : List (String × Json) :=
  [("_id", Json.num id), ("name", Json.str c.name)] ++
  optStrField "description" c.description ++
  [("industry", Json.str c.industry)] ++
  optNumField "foundedYear" c.foundedYear ++
  [("location", strArrJson c.location)] ++
  optStrField "website" c.website ++
  [("email", Json.str c.email)] ++
  optStrField "phone" c.phone ++
  optNumField "employees" c.employees ++
  [("isActive", Json.bool c.isActive)] ++
  optStrField "logo" c.logo ++
  optStrField "headquarters" c.headquarters ++
  optNumField "revenue" c.revenue ++
  [("createdAt", Json.num c.createdAt)]

/-- `ApiResponse.toJSON()`: the envelope object put on the wire. -/
def apiResponseJson (r : ApiResponse) : Json :=
  Json.obj
    ([("success", Json.bool r.success), ("statusCode", Json.num r.statusCode),
      ("message", Json.str r.message)] ++
     (match r.data with
      | none => []
      | some d => [("data", d)]) ++
     [("timestamp", Json.str r.timestamp)] ++
     optStrField "path" r.path)

/-- `sendErrorProd` for an operational error (every `ApiError` sets
`isOperational` to true): status code plus the envelope-shaped body
`{success: false, statusCode, message, timestamp, path}`. -/
def renderApiErrorProd (e : ApiError) (path timestamp : String) : Json :=
  Json.obj
    [("success", Json.bool false), ("statusCode", Json.num e.statusCode),
     ("message", Json.str e.message), ("timestamp", Json.str timestamp),
     ("path", Json.str path)]

/-- The HTTP outcome of `POST /companies`: `createCompany` wrapped by
`asyncHandler`, a thrown `ApiError` rendered by the global error
middleware, a created record rendered through `new ApiResponse(201,
'Company created successfully', newCompany)`. -/
def createCompanyResponse (b : CreateBody) (now : Int) (freshId : Nat)
    (timestamp path : String) (store : Store) : (Nat × Json) × Store :=
  match createCompany b now freshId store with
  | (Except.ok c, store') =>
    ((201, apiResponseJson (ApiResponse.make 201 "Company created successfully"
      (some (Json.obj (companyFields freshId c))) timestamp none)), store')
  | (Except.error e, store') =>
    ((e.statusCode, renderApiErrorProd e path timestamp), store')

/-- The aggregate `$project` stage of `getAllCompanies`: the selected
fields of one record. -/
def projectCompany (id : Nat) (c : Company) : Json :=
  Json.obj
    ([("_id", Json.num id), ("name", Json.str c.name)] ++
     optStrField "description" c.description ++
     [("industry", Json.str c.industry)] ++
     optNumField "foundedYear" c.foundedYear ++
     [("location", strArrJson c.location)] ++
     optStrField "website" c.website ++
     [("isActive", Json.bool c.isActive)] ++
     optStrField "logo" c.logo ++
     [("employeeRange", Json.str (getEmployeeRange c))])

/-- The HTTP outcome of `GET /companies` (`getAllCompanies`, lines
184–210): a 200 response whose body is the raw array of projected
records after `$skip (page-1)*limit` and `$limit limit`. -/
def getAllCompaniesResponse (page limit : Nat) (store : Store) : Nat × Json :=
  (200, Json.arr (((store.map (fun p => projectCompany p.1 p.2)).drop
    ((page - 1) * limit)).take limit))

/-- The HTTP outcome of `GET /companies/{id}` (`getCompanyById`, lines
236–252): 404 with `{message: 'Company not found'}` for an unknown id,
else 200 with the raw spread of `company.toObject()` plus the computed
`companyAge`. -/
def getCompanyByIdResponse (currentYear : Int) (id : Nat) (store : Store) : Nat × Json :=
  match store.find? (fun p => p.1 == id) with
  | none => (404, Json.obj [("message", Json.str "Company not found")])
  | some (storedId, c) =>
    (200, Json.obj (companyFields storedId c ++
      [("companyAge", Json.num (getCompanyAge currentYear c))]))

/-- The HTTP outcome of `PATCH /companies/{id}` (`updateCompany`, lines
299–325): the hand-written `{message}` object for the 400 and 404
cases, else 200 with the raw updated record. -/
def updateCompanyResponse (id : Nat) (body : UpdateBody) (store : Store) :
    (Nat × Json) × Store :=
  match updateCompany id body store with
  | (Except.error e, store') => ((e.1, Json.obj [("message", Json.str e.2)]), store')
  | (Except.ok c, store') => ((200, Json.obj (companyFields id c)), store')

/-- The HTTP outcome of `DELETE /companies/{id}` (`deleteCompany`,
lines 347–359): `findByIdAndDelete`, then a raw `{message}` body. -/
def deleteCompanyResponse (id : Nat) (store : Store) : (Nat × Json) × Store :=
  match findById store id with
  | none => ((404, Json.obj [("message", Json.str "Company not found")]), store)
  | some _ =>
    ((200, Json.obj [("message", Json.str "Company deleted successfully")]),
      store.filter (fun p => !(p.1 == id)))

/-- The HTTP outcome of `GET /companies/search` (`searchCompanies`,
lines 471–490): 200 with the raw array of matching records. -/
def searchCompaniesResponse (q : SearchQuery) (store : Store) : Nat × Json :=
  (200, Json.arr ((store.filter (fun p => matchesFilters (buildFilters q) p.2)).map
    (fun p => Json.obj (companyFields p.1 p.2))))

/-- The HTTP outcome of `GET /companies/search/suggestions`
(`searchSuggestion`, lines 385–415): a raw `{message}` 400 when `q` is
not a string, else 200 with the raw string array; `none` when the
pattern lies outside the modelled regex fragment. -/
def searchSuggestionResponse (q : Option String) (store : Store) : Option (Nat × Json) :=
  match q with
  | none => some (400, Json.obj [("message", Json.str "Invalid query parameter")])
  | some qs => (searchSuggestion qs store).map (fun l => (200, Json.arr (l.map Json.str)))

/-! ### Concrete sample data -/

/-- A well-formed create body (the §8 scenario). -/
def demoBody : CreateBody :=
  { name := some "Tech Corp", description := none, industry := some "Technology",
    foundedYear := none, location := some [JsVal.str "NY"], website := none,
    email := some "a@b.com", phone := none, employees := none, logo := none,
    headquarters := none, revenue := none }

/-- The same name with a different email. -/
def demoBody2 : CreateBody :=
  { demoBody with email := some "c@d.com" }

/-- A shape-valid body whose industry is outside the enum. -/
def demoBogusBody : CreateBody :=
  { demoBody with email := some "e@f.com", industry := some "Bogus" }

/-- A body missing `name`, `email` and `industry` at once. -/
def demoMissingAll : CreateBody :=
  { demoBody with name := none, email := none, industry := none }

/-- The record the demo body creates. -/
def demoCompany : Company :=
  newCompanyOf demoBody 0

/-- A one-record store. -/
def demoStore : Store :=
  [(1, demoCompany)]

/-- A search query with every parameter absent. -/
def emptyQuery : SearchQuery :=
  { name := none, location := none, industry := none, isActive := none,
    employees := none, createdAt := none, foundedYear := none }

/-- An update body with only a key outside the allow-list. -/
def junkUpdateBody : UpdateBody :=
  [("foo", JsVal.str "x")]

/-- An update body carrying only the defined falsy value `isActive: false`. -/
def falsyUpdateBody : UpdateBody :=
  [("isActive", JsVal.bool false)]

/-- An update body carrying only the defined falsy value `logo: ""`. -/
def emptyLogoBody : UpdateBody :=
  [("logo", JsVal.str "")]

/-- A store with a single record named `Acme Labs`. -/
def acmeStore : Store :=
  [(1, { name := "Acme Labs", description := none, industry := "Technology",
         foundedYear := none, location := ["NY"], website := none,
         email := "x@y.z", phone := none, employees := none, isActive := true,
         logo := none, headquarters := none, revenue := none, createdAt := 0 })]

/-! ## Helper lemmas -/

lemma string_length_zero_iff (s : String) : s.length = 0 ↔ s = "" := by
  constructor
  · intro h
    cases s with
    | mk data =>
      simp [String.length] at h
      simp [h]
  · rintro rfl; rfl

lemma mem_ite_singleton {c : Bool} {s t : String} :
    (s ∈ if c then [t] else []) ↔ (c = true ∧ s = t) := by
  cases c <;> simp

lemma mem_locationErrors_atLeast (loc : Option (List JsVal)) :
    "At least one location is required" ∈ locationErrors loc ↔
      (loc = none ∨ loc = some []) := by
  cases loc with
  | none => simp [locationErrors]
  | some l =>
    rw [locationErrors]
    split
    next h0 => simp [List.length_eq_zero.mp h0]
    next h0 =>
      have hne : l ≠ [] := by
        intro hnil; exact h0 (by simp [hnil])
      split <;> simp [hne]

lemma mem_locationErrors_each (loc : Option (List JsVal)) :
    "Each location must be a non-empty string" ∈ locationErrors loc ↔
      (∃ l, loc = some l ∧ l ≠ [] ∧ ∃ v ∈ l, ∀ s, v = JsVal.str s → jsTrim s = "") := by
  cases loc with
  | none => simp [locationErrors]
  | some l =>
    rw [locationErrors]
    split
    next h0 =>
      simp [List.length_eq_zero.mp h0]
    next h0 =>
      have hne : l ≠ [] := by
        intro hnil; exact h0 (by simp [hnil])
      split
      next h1 =>
        simp only [List.any_eq_true] at h1
        obtain ⟨v, hv, hmatch⟩ := h1
        constructor
        · intro _
          refine ⟨l, rfl, hne, v, hv, ?_⟩
          intro s hs
          subst hs
          rw [← string_length_zero_iff]
          simpa using hmatch
        · intro _
          simp
      next h1 =>
        simp only [List.any_eq_true] at h1
        push_neg at h1
        simp only [List.not_mem_nil, false_iff]
        rintro ⟨l', hl', hne', v, hv, hall⟩
        injection hl' with hl'
        subst hl'
        have hnv := h1 v hv
        cases v with
        | str s =>
          refine hnv ?_
          simpa [string_length_zero_iff] using hall s rfl
        | num n => exact hnv rfl
        | bool bb => exact hnv rfl
        | null => exact hnv rfl
        | arr xs => exact hnv rfl

lemma mem_locationErrors_imp {s : String} {loc : Option (List JsVal)}
    (h : s ∈ locationErrors loc) :
    s = "At least one location is required" ∨ s = "Each location must be a non-empty string" := by
  cases loc with
  | none =>
    simp [locationErrors] at h
    exact Or.inl h
  | some l =>
    rw [locationErrors] at h
    split at h
    · simp at h; exact Or.inl h
    · split at h
      · simp at h; exact Or.inr h
      · simp at h

/-! ## Theorems -/

/-- C8: constructing a response envelope from a status code, message
and optional payload is a pure construction whose `success` field is
true iff the status code is strictly below 400, and which carries the
given status code and message together with the construction-time
timestamp. -/
theorem apiResponse_construction (statusCode : Nat) (message : String) (data : Option Json)
    (timestamp : String) (path : Option String) :
    ((ApiResponse.make statusCode message data timestamp path).success = true ↔ statusCode < 400)
    ∧ (ApiResponse.make statusCode message data timestamp path).statusCode = statusCode
    ∧ (ApiResponse.make statusCode message data timestamp path).message = message
    ∧ (ApiResponse.make statusCode message data timestamp path).data = data
    ∧ (ApiResponse.make statusCode message data timestamp path).timestamp = timestamp
    ∧ (ApiResponse.make statusCode message data timestamp path).path = path := by
  refine ⟨?_, rfl, rfl, rfl, rfl, rfl⟩
  simp [ApiResponse.make]

/-- C9: for a stored record, get-by-id responds 200 with the full
record plus a computed `companyAge`, which is the current year minus
`foundedYear` for a schema-valid stored year (≥ 1800) and 0 when the
record has no `foundedYear`. -/
theorem getCompanyById_companyAge (currentYear : Int) (id : Nat) (store : Store) (c : Company)
    (h : findById store id = some c) :
    getCompanyByIdResponse currentYear id store =
      (200, Json.obj (companyFields id c ++
        [("companyAge", Json.num (getCompanyAge currentYear c))]))
    ∧ (c.foundedYear = none → getCompanyAge currentYear c = 0)
    ∧ (∀ y, c.foundedYear = some y → 1800 ≤ y →
        getCompanyAge currentYear c = currentYear - y) := by
  refine ⟨?_, ?_, ?_⟩
  · rw [findById] at h
    obtain ⟨⟨sid, c'⟩, hf, hsnd⟩ := Option.map_eq_some'.mp h
    cases hsnd
    have hkey : sid = id := by
      have := List.find?_some hf
      simpa using this
    subst hkey
    rw [getCompanyByIdResponse, hf]
  · intro h0
    simp [getCompanyAge, h0]
  · intro y hy hge
    simp only [getCompanyAge, hy]
    rw [if_neg (by omega)]

/-- Witness for C9 at a concrete store: the demo record has no
`foundedYear`, and its computed age is 0. -/
theorem getCompanyById_companyAge_witness :
    findById demoStore 1 = some demoCompany ∧
    getCompanyByIdResponse 2025 1 demoStore =
      (200, Json.obj (companyFields 1 demoCompany ++
        [("companyAge", Json.num (getCompanyAge 2025 demoCompany))])) ∧
    getCompanyAge 2025 demoCompany = 0 :=
  ⟨by decide, (getCompanyById_companyAge 2025 1 demoStore demoCompany (by decide)).1,
   (getCompanyById_companyAge 2025 1 demoStore demoCompany (by decide)).2.1 (by decide)⟩

/-- C4: an update retains only allow-listed keys, and a body with no
allow-listed key fails with the 400 `No fields provided to update`
response, leaving the store unchanged. -/
theorem update_allowlist_enforced (id : Nat) (body : UpdateBody) (store : Store) :
    (∀ kv ∈ buildUpdateData body, kv.1 ∈ allowedFields)
    ∧ ((∀ kv ∈ body, kv.1 ∉ allowedFields) →
        (updateCompany id body store).1 = Except.error (400, "No fields provided to update")
        ∧ (updateCompany id body store).2 = store) := by
  constructor
  · intro kv hkv
    rw [buildUpdateData, List.mem_filterMap] at hkv
    obtain ⟨field, hf, heq⟩ := hkv
    obtain ⟨v, hv, rfl⟩ := Option.map_eq_some'.mp heq
    exact hf
  · intro hnone
    have hempty : buildUpdateData body = [] := by
      rw [buildUpdateData, List.filterMap_eq_nil_iff]
      intro field hf
      rw [Option.map_eq_none', bodyGet, Option.map_eq_none', List.find?_eq_none]
      intro p hp hpe
      exact hnone p hp (by simpa using (beq_iff_eq.mp hpe) ▸ hf)
    constructor <;> simp [updateCompany, hempty]

/-- Witness for C4: an update body holding only the key `foo` is
rejected with the 400 response and the store is unchanged. -/
theorem update_allowlist_enforced_witness :
    (∀ kv ∈ junkUpdateBody, kv.1 ∉ allowedFields) ∧
    (updateCompany 1 junkUpdateBody demoStore).1 =
      Except.error (400, "No fields provided to update") ∧
    (updateCompany 1 junkUpdateBody demoStore).2 = demoStore :=
  ⟨by decide, (update_allowlist_enforced 1 junkUpdateBody demoStore).2 (by decide)⟩

/-- C10: any allow-listed key counts as provided whenever its value is
not `undefined`: a defined falsy value (`false`, `null`, `0`, `""`) is
retained in the update set and does not trigger the
`No fields provided to update` failure. -/
theorem update_defined_falsy_retained (id : Nat) (body : UpdateBody) (store : Store)
    (field : String) (v : JsVal)
    (hfield : field ∈ allowedFields)
    (h : bodyGet body field = some v) :
    (field, v) ∈ buildUpdateData body
    ∧ (updateCompany id body store).1 ≠ Except.error (400, "No fields provided to update") := by
  have hmem : (field, v) ∈ buildUpdateData body := by
    rw [buildUpdateData, List.mem_filterMap]
    exact ⟨field, hfield, by rw [h]; rfl⟩
  refine ⟨hmem, ?_⟩
  have hne : buildUpdateData body ≠ [] := by
    intro hnil
    rw [hnil] at hmem
    exact (List.not_mem_nil _) hmem
  simp only [updateCompany, List.length_eq_zero, if_neg hne]
  cases hf : findById store id with
  | none => simp
  | some c => simp

/-- Witness for C10: a body of only `isActive: false`, and one of only
`logo: ""`, are each retained and do not produce the no-fields
failure. -/
theorem update_defined_falsy_retained_witness :
    ("isActive" ∈ allowedFields ∧
     bodyGet falsyUpdateBody "isActive" = some (JsVal.bool false) ∧
     ("isActive", JsVal.bool false) ∈ buildUpdateData falsyUpdateBody ∧
     (updateCompany 1 falsyUpdateBody demoStore).1 ≠
       Except.error (400, "No fields provided to update")) ∧
    ("logo" ∈ allowedFields ∧
     bodyGet emptyLogoBody "logo" = some (JsVal.str "") ∧
     ("logo", JsVal.str "") ∈ buildUpdateData emptyLogoBody ∧
     (updateCompany 1 emptyLogoBody demoStore).1 ≠
       Except.error (400, "No fields provided to update")) :=
  ⟨⟨by decide, by decide,
    (update_defined_falsy_retained 1 falsyUpdateBody demoStore "isActive" (JsVal.bool false)
      (by decide) (by decide)).1,
    (update_defined_falsy_retained 1 falsyUpdateBody demoStore "isActive" (JsVal.bool false)
      (by decide) (by decide)).2⟩,
   ⟨by decide, by decide,
    (update_defined_falsy_retained 1 emptyLogoBody demoStore "logo" (JsVal.str "")
      (by decide) (by decide)).1,
    (update_defined_falsy_retained 1 emptyLogoBody demoStore "logo" (JsVal.str "")
      (by decide) (by decide)).2⟩⟩

/-- C2: create-time field-shape validation collects every violation —
blank name, blank email, falsy industry, and the two location checks —
and reports them together in one 400 `Missing fields` failure listing
all offending fields, never only the first detected. -/
theorem create_validation_collects (b : CreateBody) (now : Int) (freshId : Nat) (store : Store)
    (h : createValidationErrors b ≠ []) :
    (createCompany b now freshId store).1 =
      Except.error (ApiError.badRequest "Missing fields" (some (createValidationErrors b)))
    ∧ ("Name is required" ∈ createValidationErrors b ↔ strBlank b.name = true)
    ∧ ("Email is required" ∈ createValidationErrors b ↔ strBlank b.email = true)
    ∧ ("Industry is required" ∈ createValidationErrors b ↔ strFalsy b.industry = true)
    ∧ ("At least one location is required" ∈ createValidationErrors b ↔
        (b.location = none ∨ b.location = some []))
    ∧ ("Each location must be a non-empty string" ∈ createValidationErrors b ↔
        (∃ l, b.location = some l ∧ l ≠ [] ∧ ∃ v ∈ l, ∀ s, v = JsVal.str s → jsTrim s = "")) := by
  have hlen : 0 < (createValidationErrors b).length := List.length_pos.mpr h
  refine ⟨?_, ?_, ?_, ?_, ?_, ?_⟩
  · simp only [createCompany]
    rw [if_pos hlen]
  · constructor
    · intro hmem
      simp only [createValidationErrors, List.mem_append, mem_ite_singleton] at hmem
      rcases hmem with ((⟨hb, he⟩ | ⟨hb, he⟩) | ⟨hb, he⟩) | h4
      · exact hb
      · exact absurd he (by decide)
      · exact absurd he (by decide)
      · rcases mem_locationErrors_imp h4 with he | he <;> exact absurd he (by decide)
    · intro hb
      simp only [createValidationErrors, List.mem_append, mem_ite_singleton]
      exact Or.inl (Or.inl (Or.inl ⟨hb, trivial⟩))
  · constructor
    · intro hmem
      simp only [createValidationErrors, List.mem_append, mem_ite_singleton] at hmem
      rcases hmem with ((⟨hb, he⟩ | ⟨hb, he⟩) | ⟨hb, he⟩) | h4
      · exact absurd he (by decide)
      · exact hb
      · exact absurd he (by decide)
      · rcases mem_locationErrors_imp h4 with he | he <;> exact absurd he (by decide)
    · intro hb
      simp only [createValidationErrors, List.mem_append, mem_ite_singleton]
      exact Or.inl (Or.inl (Or.inr ⟨hb, trivial⟩))
  · constructor
    · intro hmem
      simp only [createValidationErrors, List.mem_append, mem_ite_singleton] at hmem
      rcases hmem with ((⟨hb, he⟩ | ⟨hb, he⟩) | ⟨hb, he⟩) | h4
      · exact absurd he (by decide)
      · exact absurd he (by decide)
      · exact hb
      · rcases mem_locationErrors_imp h4 with he | he <;> exact absurd he (by decide)
    · intro hb
      simp only [createValidationErrors, List.mem_append, mem_ite_singleton]
      exact Or.inl (Or.inr ⟨hb, trivial⟩)
  · constructor
    · intro hmem
      simp only [createValidationErrors, List.mem_append, mem_ite_singleton] at hmem
      rcases hmem with ((⟨hb, he⟩ | ⟨hb, he⟩) | ⟨hb, he⟩) | h4
      · exact absurd he (by decide)
      · exact absurd he (by decide)
      · exact absurd he (by decide)
      · exact (mem_locationErrors_atLeast _).mp h4
    · intro hcond
      simp only [createValidationErrors, List.mem_append]
      exact Or.inr ((mem_locationErrors_atLeast _).mpr hcond)
  · constructor
    · intro hmem
      simp only [createValidationErrors, List.mem_append, mem_ite_singleton] at hmem
      rcases hmem with ((⟨hb, he⟩ | ⟨hb, he⟩) | ⟨hb, he⟩) | h4
      · exact absurd he (by decide)
      · exact absurd he (by decide)
      · exact absurd he (by decide)
      · exact (mem_locationErrors_each _).mp h4
    · intro hcond
      simp only [createValidationErrors, List.mem_append]
      exact Or.inr ((mem_locationErrors_each _).mpr hcond)

/-- Witness for C2: a body missing `name`, `email` and `industry` at
once fails with a single response listing all three violations. -/
theorem create_validation_collects_witness :
    createValidationErrors demoMissingAll ≠ [] ∧
    (createCompany demoMissingAll 0 1 ([] : Store)).1 =
      Except.error (ApiError.badRequest "Missing fields"
        (some (createValidationErrors demoMissingAll))) ∧
    "Name is required" ∈ createValidationErrors demoMissingAll ∧
    "Email is required" ∈ createValidationErrors demoMissingAll ∧
    "Industry is required" ∈ createValidationErrors demoMissingAll :=
  ⟨by decide,
   (create_validation_collects demoMissingAll 0 1 [] (by decide)).1,
   ((create_validation_collects demoMissingAll 0 1 [] (by decide)).2.1).mpr (by decide),
   ((create_validation_collects demoMissingAll 0 1 [] (by decide)).2.2.1).mpr (by decide),
   ((create_validation_collects demoMissingAll 0 1 [] (by decide)).2.2.2.1).mpr (by decide)⟩

lemma createCompany_missing (b : CreateBody) (now : Int) (freshId : Nat) (store : Store)
    (hv : createValidationErrors b ≠ []) :
    createCompany b now freshId store =
      (Except.error (ApiError.badRequest "Missing fields" (some (createValidationErrors b))),
        store) := by
  have hlen : 0 < (createValidationErrors b).length := List.length_pos.mpr hv
  simp only [createCompany]
  rw [if_pos hlen]

lemma createCompany_conflict (b : CreateBody) (now : Int) (freshId : Nat) (store : Store)
    (hv : createValidationErrors b = [])
    (hfd : findDuplicate store (b.name.getD "") (b.email.getD "") ≠ none) :
    createCompany b now freshId store =
      (Except.error { statusCode := 400, message := "Already existing company", errors := none },
        store) := by
  have hlen : ¬ 0 < (createValidationErrors b).length := by simp [hv]
  simp only [createCompany]
  rw [if_neg hlen]
  cases hd : findDuplicate store (b.name.getD "") (b.email.getD "") with
  | none => exact absurd hd hfd
  | some c => rfl

lemma createCompany_invalidEnum (b : CreateBody) (now : Int) (freshId : Nat) (store : Store)
    (hv : createValidationErrors b = [])
    (hfd : findDuplicate store (b.name.getD "") (b.email.getD "") = none)
    (hnin : (b.industry.getD "") ∉ industryEnum) :
    createCompany b now freshId store =
      (Except.error (ApiError.badRequest
        ("Invalid industry. Allowed values are: " ++ String.intercalate ", " industryEnum)
        none), store) := by
  have hlen : ¬ 0 < (createValidationErrors b).length := by simp [hv]
  simp only [createCompany]
  rw [if_neg hlen, hfd]
  simp only [if_pos hnin]

lemma createCompany_ok (b : CreateBody) (now : Int) (freshId : Nat) (store : Store)
    (hv : createValidationErrors b = [])
    (hfd : findDuplicate store (b.name.getD "") (b.email.getD "") = none)
    (hin : (b.industry.getD "") ∈ industryEnum) :
    createCompany b now freshId store =
      (Except.ok (newCompanyOf b now), store ++ [(freshId, newCompanyOf b now)]) := by
  have hlen : ¬ 0 < (createValidationErrors b).length := by simp [hv]
  simp only [createCompany]
  rw [if_neg hlen, hfd]
  simp only [if_neg (not_not_intro hin)]

/-- C3: in the create operation the duplicate check (400 conflict on
an exact name-or-email match) runs only once field-shape validation
passed, the industry-enum check (naming the allowed values) follows the
duplicate check, the insert happens only when all checks pass, and no
write occurs when any create-time check fails. -/
theorem create_check_order (b : CreateBody) (now : Int) (freshId : Nat) (store : Store) :
    (∀ e, (createCompany b now freshId store).1 = Except.error e →
      (createCompany b now freshId store).2 = store)
    ∧ (createValidationErrors b ≠ [] →
        (createCompany b now freshId store).1 =
          Except.error (ApiError.badRequest "Missing fields" (some (createValidationErrors b))))
    ∧ (createValidationErrors b = [] →
        findDuplicate store (b.name.getD "") (b.email.getD "") ≠ none →
        (createCompany b now freshId store).1 =
          Except.error { statusCode := 400, message := "Already existing company", errors := none })
    ∧ (createValidationErrors b = [] →
        findDuplicate store (b.name.getD "") (b.email.getD "") = none →
        (b.industry.getD "") ∉ industryEnum →
        (createCompany b now freshId store).1 =
          Except.error (ApiError.badRequest
            ("Invalid industry. Allowed values are: " ++ String.intercalate ", " industryEnum)
            none))
    ∧ (createValidationErrors b = [] →
        findDuplicate store (b.name.getD "") (b.email.getD "") = none →
        (b.industry.getD "") ∈ industryEnum →
        createCompany b now freshId store =
          (Except.ok (newCompanyOf b now), store ++ [(freshId, newCompanyOf b now)])) := by
  refine ⟨?_, ?_, ?_, ?_, ?_⟩
  · intro e he
    by_cases hv : createValidationErrors b = []
    · cases hfd : findDuplicate store (b.name.getD "") (b.email.getD "") with
      | some c =>
        rw [createCompany_conflict b now freshId store hv (by rw [hfd]; simp)]
      | none =>
        by_cases hin : (b.industry.getD "") ∈ industryEnum
        · rw [createCompany_ok b now freshId store hv hfd hin] at he
          exact absurd he (by simp)
        · rw [createCompany_invalidEnum b now freshId store hv hfd hin]
    · rw [createCompany_missing b now freshId store hv]
  · intro hv
    rw [createCompany_missing b now freshId store hv]
  · intro hv hfd
    rw [createCompany_conflict b now freshId store hv hfd]
  · intro hv hfd hnin
    rw [createCompany_invalidEnum b now freshId store hv hfd hnin]
  · intro hv hfd hin
    exact createCompany_ok b now freshId store hv hfd hin

/-- Witness for C3: a shape-valid body whose name conflicts and whose
industry is invalid fails with the conflict error (the duplicate check
precedes the enum check) and writes nothing. -/
theorem create_check_order_witness :
    createValidationErrors demoBogusBody = [] ∧
    findDuplicate demoStore (demoBogusBody.name.getD "") (demoBogusBody.email.getD "") ≠ none ∧
    (demoBogusBody.industry.getD "") ∉ industryEnum ∧
    (createCompany demoBogusBody 0 2 demoStore).1 =
      Except.error { statusCode := 400, message := "Already existing company", errors := none } ∧
    (createCompany demoBogusBody 0 2 demoStore).2 = demoStore := by
  refine ⟨by decide, by decide, by decide, ?_, ?_⟩
  · exact (create_check_order demoBogusBody 0 2 demoStore).2.2.1 (by decide) (by decide)
  · exact (create_check_order demoBogusBody 0 2 demoStore).1 _
      ((create_check_order demoBogusBody 0 2 demoStore).2.2.1 (by decide) (by decide))

/-- C1: two create requests with equal name or equal email, run in
either order against a store not already conflicting with the first:
exactly one succeeds, and the other fails with the 400
`Already existing company` conflict error, leaving the store as the
first create left it. -/
theorem create_unique_name_email (b1 b2 : CreateBody) (now1 now2 : Int) (id1 id2 : Nat)
    (s0 : Store)
    (h1 : createValidationErrors b1 = [])
    (h2 : createValidationErrors b2 = [])
    (henum1 : (b1.industry.getD "") ∈ industryEnum)
    (hnodup1 : findDuplicate s0 (b1.name.getD "") (b1.email.getD "") = none)
    (heq : b1.name = b2.name ∨ b1.email = b2.email) :
    (createCompany b1 now1 id1 s0).1 = Except.ok (newCompanyOf b1 now1)
    ∧ (createCompany b2 now2 id2 (createCompany b1 now1 id1 s0).2).1 =
        Except.error { statusCode := 400, message := "Already existing company", errors := none }
    ∧ (createCompany b2 now2 id2 (createCompany b1 now1 id1 s0).2).2 =
        (createCompany b1 now1 id1 s0).2 := by
  rw [createCompany_ok b1 now1 id1 s0 h1 hnodup1 henum1]
  have hfd2 : findDuplicate (s0 ++ [(id1, newCompanyOf b1 now1)])
      (b2.name.getD "") (b2.email.getD "") ≠ none := by
    rw [findDuplicate]
    intro hnone
    rw [List.find?_eq_none] at hnone
    refine hnone (newCompanyOf b1 now1) ?_ ?_
    · exact List.mem_map_of_mem Prod.snd (List.mem_append_right s0 (List.mem_singleton_self _))
    · rcases heq with heqn | heqe
      · simp [newCompanyOf, heqn]
      · simp [newCompanyOf, heqe]
  rw [createCompany_conflict b2 now2 id2 _ h2 hfd2]
  exact ⟨rfl, rfl, rfl⟩

/-- Witness for C1: creating `Tech Corp` and then a second body with
the same name and a different email — the first succeeds, the second
gets the conflict error. -/
theorem create_unique_name_email_witness :
    createValidationErrors demoBody = [] ∧ createValidationErrors demoBody2 = [] ∧
    (demoBody.industry.getD "") ∈ industryEnum ∧
    findDuplicate ([] : Store) (demoBody.name.getD "") (demoBody.email.getD "") = none ∧
    demoBody.name = demoBody2.name ∧
    (createCompany demoBody 0 1 []).1 = Except.ok (newCompanyOf demoBody 0) ∧
    (createCompany demoBody2 1 2 (createCompany demoBody 0 1 []).2).1 =
      Except.error { statusCode := 400, message := "Already existing company", errors := none } := by
  refine ⟨by decide, by decide, by decide, by decide, by decide, ?_, ?_⟩
  · exact (create_unique_name_email demoBody demoBody2 0 1 1 2 []
      (by decide) (by decide) (by decide) (by decide) (Or.inl (by decide))).1
  · exact (create_unique_name_email demoBody demoBody2 0 1 1 2 []
      (by decide) (by decide) (by decide) (by decide) (Or.inl (by decide))).2.1


lemma ifTruthy_eq (o : Option String) :
    (if truthy o then o else none) = presentNonEmpty o := by
  cases o with
  | none => rfl
  | some s => cases hs : (s == "") <;> simp [truthy, presentNonEmpty, hs]

lemma ifTruthyNum_eq (o : Option String) :
    (if truthy o then some (jsNumber (o.getD "")) else none) =
      (presentNonEmpty o).map jsNumber := by
  cases o with
  | none => rfl
  | some s => cases hs : (s == "") <;> simp [truthy, presentNonEmpty, hs]

/-- C5 (amended): the search filter is the conjunction of exactly the
constraints for the query parameters present *with a non-empty value*
(`isActive` alone is keyed on mere presence): `industry` exact
equality, `employees` at-least, and every absent — or empty-string —
parameter imposes no constraint. -/
theorem search_filter_conjunction (q : SearchQuery) (c : Company) (store : Store) :
    matchesFilters (buildFilters q) c = truthyPresentFilter q c
    ∧ searchCompanies q store =
        (store.map Prod.snd).filter (fun x => truthyPresentFilter q x) := by
  have hmain : ∀ c' : Company, matchesFilters (buildFilters q) c' = truthyPresentFilter q c' := by
    intro c'
    cases hact : q.isActive <;>
      simp only [matchesFilters, buildFilters, truthyPresentFilter, ifTruthy_eq, ifTruthyNum_eq,
        hact, Option.map_none', Option.map_some']
  refine ⟨hmain c, ?_⟩
  rw [searchCompanies]
  exact List.filter_congr (fun x _ => hmain x)

/-- Counterexample to C5 as stated: with `industry` present as the
empty string, the code imposes no constraint and returns the stored
record, while the claim's present-parameter equality constraint
excludes every record. -/
theorem search_filter_conjunction_counterexample :
    searchCompanies { emptyQuery with industry := some "" } demoStore = [demoCompany]
    ∧ (demoStore.map Prod.snd).filter
        (fun c => specFilterOfPresent { emptyQuery with industry := some "" } c) =
        ([] : List Company)
    ∧ specFilterOfPresent { emptyQuery with industry := some "" } demoCompany = false := by
  exact ⟨by decide, by decide, by decide⟩

lemma setAdd_mem (acc : List String) (s v : String) :
    v ∈ setAdd acc s ↔ v ∈ acc ∨ v = s := by
  rw [setAdd]
  by_cases h : s ∈ acc
  · rw [if_pos h]
    constructor
    · exact Or.inl
    · rintro (hv | rfl)
      · exact hv
      · exact h
  · rw [if_neg h]
    simp [List.mem_append]

lemma setAdd_nodup (acc : List String) (s : String) (h : acc.Nodup) :
    (setAdd acc s).Nodup := by
  rw [setAdd]
  by_cases hs : s ∈ acc
  · rw [if_pos hs]; exact h
  · rw [if_neg hs]
    rw [List.nodup_append]
    exact ⟨h, List.nodup_singleton s, by simpa using hs⟩

lemma condAdd_mem (b : Bool) (acc : List String) (s v : String) :
    (v ∈ if b then setAdd acc s else acc) ↔ v ∈ acc ∨ (v = s ∧ b = true) := by
  cases b <;> simp [setAdd_mem]

lemma locFold_mem (test : String → Bool) (locs : List String) (acc : List String) (v : String) :
    (v ∈ locs.foldl (fun a loc => if test loc then setAdd a loc else a) acc) ↔
      v ∈ acc ∨ (v ∈ locs ∧ test v = true) := by
  induction locs generalizing acc with
  | nil => simp
  | cons l rest ih =>
    rw [List.foldl_cons, ih, condAdd_mem]
    constructor
    · rintro ((hv | ⟨rfl, hm⟩) | ⟨hv, hm⟩)
      · exact Or.inl hv
      · exact Or.inr ⟨List.mem_cons_self _ _, hm⟩
      · exact Or.inr ⟨List.mem_cons_of_mem _ hv, hm⟩
    · rintro (hv | ⟨hv, hm⟩)
      · exact Or.inl (Or.inl hv)
      · rcases List.mem_cons.mp hv with rfl | hv'
        · exact Or.inl (Or.inr ⟨rfl, hm⟩)
        · exact Or.inr ⟨hv', hm⟩

lemma locFold_nodup (test : String → Bool) (locs : List String) (acc : List String)
    (h : acc.Nodup) :
    (locs.foldl (fun a loc => if test loc then setAdd a loc else a) acc).Nodup := by
  induction locs generalizing acc with
  | nil => simpa using h
  | cons l rest ih =>
    rw [List.foldl_cons]
    apply ih
    split
    · exact setAdd_nodup _ _ h
    · exact h

lemma addSuggestionsBy_mem (test : String → Bool) (acc : List String) (c : Company)
    (v : String) :
    v ∈ addSuggestionsBy test acc c ↔
      v ∈ acc ∨ ((c.name = v ∨ c.industry = v ∨ v ∈ c.location) ∧ test v = true) := by
  simp only [addSuggestionsBy]
  rw [locFold_mem, condAdd_mem, condAdd_mem]
  constructor
  · rintro (((hv | ⟨rfl, hm⟩) | ⟨rfl, hm⟩) | ⟨hloc, hm⟩)
    · exact Or.inl hv
    · exact Or.inr ⟨Or.inl rfl, hm⟩
    · exact Or.inr ⟨Or.inr (Or.inl rfl), hm⟩
    · exact Or.inr ⟨Or.inr (Or.inr hloc), hm⟩
  · rintro (hv | ⟨hf, hm⟩)
    · exact Or.inl (Or.inl (Or.inl hv))
    · rcases hf with rfl | rfl | hloc
      · exact Or.inl (Or.inl (Or.inr ⟨rfl, hm⟩))
      · exact Or.inl (Or.inr ⟨rfl, hm⟩)
      · exact Or.inr ⟨hloc, hm⟩

lemma addSuggestionsBy_nodup (test : String → Bool) (acc : List String) (c : Company)
    (h : acc.Nodup) :
    (addSuggestionsBy test acc c).Nodup := by
  simp only [addSuggestionsBy]
  apply locFold_nodup
  split
  · apply setAdd_nodup
    split
    · exact setAdd_nodup _ _ h
    · exact h
  · split
    · exact setAdd_nodup _ _ h
    · exact h

lemma suggFold_mem (test : String → Bool) (cs : List Company) (acc : List String)
    (v : String) :
    v ∈ cs.foldl (fun acc c => addSuggestionsBy test acc c) acc ↔
      v ∈ acc ∨ ∃ c ∈ cs, (c.name = v ∨ c.industry = v ∨ v ∈ c.location) ∧
        test v = true := by
  induction cs generalizing acc with
  | nil => simp
  | cons c rest ih =>
    rw [List.foldl_cons, ih, addSuggestionsBy_mem]
    constructor
    · rintro ((hv | ⟨hf, hm⟩) | ⟨c', hc', hf', hm'⟩)
      · exact Or.inl hv
      · exact Or.inr ⟨c, List.mem_cons_self _ _, hf, hm⟩
      · exact Or.inr ⟨c', List.mem_cons_of_mem _ hc', hf', hm'⟩
    · rintro (hv | ⟨c', hc', hf', hm'⟩)
      · exact Or.inl (Or.inl hv)
      · rcases List.mem_cons.mp hc' with rfl | hc''
        · exact Or.inl (Or.inr ⟨hf', hm'⟩)
        · exact Or.inr ⟨c', hc'', hf', hm'⟩

lemma suggFold_nodup (test : String → Bool) (cs : List Company) (acc : List String)
    (h : acc.Nodup) :
    (cs.foldl (fun acc c => addSuggestionsBy test acc c) acc).Nodup := by
  induction cs generalizing acc with
  | nil => simpa using h
  | cons c rest ih =>
    rw [List.foldl_cons]
    exact ih _ (addSuggestionsBy_nodup _ _ _ h)

lemma fieldMatch_recordMatches {test : String → Bool} {v : String} {c : Company}
    (hf : c.name = v ∨ c.industry = v ∨ v ∈ c.location) (hm : test v = true) :
    recordMatchesBy test c = true := by
  rw [recordMatchesBy]
  rcases hf with rfl | rfl | hloc
  · simp [hm]
  · simp [hm]
  · simp only [Bool.or_eq_true, List.any_eq_true]
    exact Or.inr ⟨v, hloc, hm⟩

lemma collectSuggestions_mem (test : String → Bool) (store : Store) (v : String) :
    v ∈ collectSuggestions test store ↔
      (test v = true ∧ ∃ c, c ∈ store.map Prod.snd ∧
        (c.name = v ∨ c.industry = v ∨ v ∈ c.location)) := by
  simp only [collectSuggestions]
  rw [suggFold_mem]
  simp only [List.not_mem_nil, false_or]
  constructor
  · rintro ⟨c, hc, hf, hm⟩
    exact ⟨hm, c, (List.mem_filter.mp hc).1, hf⟩
  · rintro ⟨hm, c, hc, hf⟩
    exact ⟨c, List.mem_filter.mpr ⟨hc, fieldMatch_recordMatches hf hm⟩, hf, hm⟩

lemma collectSuggestions_nodup (test : String → Bool) (store : Store) :
    (collectSuggestions test store).Nodup := by
  simp only [collectSuggestions]
  exact suggFold_nodup _ _ _ List.nodup_nil

lemma parseTokens_literal (l : List Char)
    (h : l.all (fun c => !(regexSpecials.contains c)) = true) :
    parseTokens l = some (l.map RChar.lit) := by
  induction l with
  | nil => rfl
  | cons c cs ih =>
    simp only [List.all_cons, Bool.and_eq_true] at h
    obtain ⟨hc, hcs⟩ := h
    have hmem : c ∉ regexSpecials := by simpa using hc
    have hdot : ¬ c = '.' := by
      intro hrfl
      exact hmem (hrfl ▸ (by decide : ('.' : Char) ∈ regexSpecials))
    rw [parseTokens, if_neg hdot, if_neg hmem, ih hcs]
    rfl

lemma leadsWithR_lit (l : List Char) (h : List Char) :
    leadsWithR (l.map RChar.lit) h = leadsWith (l.map Char.toLower) (h.map Char.toLower) := by
  induction l generalizing h with
  | nil => rfl
  | cons a as ih =>
    cases h with
    | nil => rfl
    | cons b bs =>
      simp only [List.map_cons, leadsWithR, leadsWith, rcharMatch]
      rw [ih]

lemma occursInR_lit (l : List Char) (h : List Char) :
    occursInR (l.map RChar.lit) h = occursIn (l.map Char.toLower) (h.map Char.toLower) := by
  induction h with
  | nil => exact leadsWithR_lit l []
  | cons c rest ih =>
    simp only [occursInR, List.map_cons, occursIn]
    rw [leadsWithR_lit l (c :: rest), ih]
    rfl

lemma regexIMatch_literal (q : String) (h : literalPattern q = true) :
    ∃ p, parsePattern q = some p ∧ ∀ s, regexIMatch p s = ciMatch q s := by
  refine ⟨q.toList.map RChar.lit, parseTokens_literal _ h, ?_⟩
  intro s
  rw [regexIMatch, occursInR_lit, ciMatch]

/-- C6 (amended): for a plain-text query — one with no regex special
character — the suggestion operation returns a deduplicated collection
containing exactly those individual field values (names, industries,
single location entries of stored records) that match the query as a
case-insensitive substring; for other queries the raw query acts as a
regex pattern instead. -/
theorem suggestion_matching_values_dedup (q : String) (store : Store)
    (hlit : literalPattern q = true) :
    searchSuggestion q store = some (specSearchSuggestion q store)
    ∧ (∀ v, v ∈ specSearchSuggestion q store ↔
        (ciMatch q v = true ∧ ∃ c, c ∈ store.map Prod.snd ∧
          (c.name = v ∨ c.industry = v ∨ v ∈ c.location)))
    ∧ (specSearchSuggestion q store).Nodup := by
  obtain ⟨p, hp, hpt⟩ := regexIMatch_literal q hlit
  have hfun : regexIMatch p = ciMatch q := funext hpt
  refine ⟨?_, ?_, collectSuggestions_nodup _ _⟩
  · rw [searchSuggestion, hp, Option.map_some', specSearchSuggestion, hfun]
  · intro v
    exact collectSuggestions_mem (ciMatch q) store v

/-- Witness for C6 at a concrete literal query. -/
theorem suggestion_matching_values_dedup_witness :
    literalPattern "Acme" = true ∧
    (searchSuggestion "Acme" acmeStore = some (specSearchSuggestion "Acme" acmeStore) ∧
     (∀ v, v ∈ specSearchSuggestion "Acme" acmeStore ↔
        (ciMatch "Acme" v = true ∧ ∃ c, c ∈ acmeStore.map Prod.snd ∧
          (c.name = v ∨ c.industry = v ∨ v ∈ c.location))) ∧
     (specSearchSuggestion "Acme" acmeStore).Nodup) :=
  ⟨by decide, suggestion_matching_values_dedup "Acme" acmeStore (by decide)⟩

/-- Counterexample to C6 as stated: the query is used as a regex
pattern, so `q = "Acme."` returns `"Acme Labs"` (the `.` matches the
space) although `"Acme."` is not a case-insensitive substring of it. -/
theorem suggestion_regex_counterexample :
    searchSuggestion "Acme." acmeStore = some ["Acme Labs"]
    ∧ ciMatch "Acme." "Acme Labs" = false := by
  exact ⟨by decide, by decide⟩

lemma optStrField_any_success (k : String) (o : Option String) (h : (k == "success") = false) :
    (optStrField k o).any (fun p => p.1 == "success") = false := by
  cases o <;> simp [optStrField, h]

lemma optNumField_any_success (k : String) (o : Option Int) (h : (k == "success") = false) :
    (optNumField k o).any (fun p => p.1 == "success") = false := by
  cases o <;> simp [optNumField, h]

lemma companyFields_no_success (id : Nat) (c : Company) :
    ((companyFields id c).any (fun p => p.1 == "success")) = false := by
  simp only [companyFields, List.any_append, Bool.or_eq_false_iff]
  repeat' apply And.intro
  all_goals first
    | rfl
    | exact optStrField_any_success _ _ rfl
    | exact optNumField_any_success _ _ rfl


lemma obj_companyFields_not_envelope (id : Nat) (c : Company) :
    isEnvelopeShape (Json.obj (companyFields id c)) = false := by
  have h1 : (Json.obj (companyFields id c)).hasKey "success" = false := by
    simp only [Json.hasKey]
    exact companyFields_no_success id c
  rw [isEnvelopeShape, h1]
  rfl

/-- C7 (amended): the create endpoint renders the uniform envelope
(success via `ApiResponse`, thrown errors via the error middleware),
while the list, get-by-id, update, delete, search and suggestion
endpoints put raw bodies on the wire — arrays, the record spread, or
`{message}` objects — without the envelope fields. -/
theorem response_envelope_amended (b : CreateBody) (now : Int) (freshId : Nat)
    (ts path : String) (store : Store) (page limit : Nat) (year : Int) (id : Nat)
    (body : UpdateBody) (sq : SearchQuery) (qopt : Option String) :
    isEnvelopeShape (createCompanyResponse b now freshId ts path store).1.2 = true
    ∧ isEnvelopeShape (getAllCompaniesResponse page limit store).2 = false
    ∧ isEnvelopeShape (getCompanyByIdResponse year id store).2 = false
    ∧ isEnvelopeShape (updateCompanyResponse id body store).1.2 = false
    ∧ isEnvelopeShape (deleteCompanyResponse id store).1.2 = false
    ∧ isEnvelopeShape (searchCompaniesResponse sq store).2 = false
    ∧ (∀ r, searchSuggestionResponse qopt store = some r →
        isEnvelopeShape r.2 = false) := by
  refine ⟨?_, rfl, ?_, ?_, ?_, rfl, ?_⟩
  · rcases hres : createCompany b now freshId store with ⟨r, s'⟩
    rw [createCompanyResponse, hres]
    cases r <;> rfl
  · rcases hf : store.find? (fun p => p.1 == id) with _ | ⟨sid, c⟩
    · rw [getCompanyByIdResponse, hf]
      rfl
    · rw [getCompanyByIdResponse, hf]
      have h1 : (Json.obj (companyFields sid c ++
          [("companyAge", Json.num (getCompanyAge year c))])).hasKey "success" = false := by
        simp only [Json.hasKey]
        rw [List.any_append, companyFields_no_success]
        rfl
      rw [isEnvelopeShape, h1]
      rfl
  · rcases hres : updateCompany id body store with ⟨r, s'⟩
    rw [updateCompanyResponse, hres]
    cases r with
    | error e => rfl
    | ok c => exact obj_companyFields_not_envelope id c
  · rcases hf : findById store id with _ | c
    · rw [deleteCompanyResponse, hf]
      rfl
    · rw [deleteCompanyResponse, hf]
      rfl
  · intro r hr
    rcases qopt with _ | qs
    · cases hr
      rfl
    · rw [searchSuggestionResponse] at hr
      obtain ⟨l, hl, rfl⟩ := Option.map_eq_some'.mp hr
      rfl

/-- Counterexample to C7 as stated: successful list and get-by-id
responses lack the envelope shape entirely. -/
theorem response_envelope_counterexample :
    (getAllCompaniesResponse 1 10 demoStore).1 = 200
    ∧ isEnvelopeShape (getAllCompaniesResponse 1 10 demoStore).2 = false
    ∧ (getCompanyByIdResponse 2025 1 demoStore).1 = 200
    ∧ isEnvelopeShape (getCompanyByIdResponse 2025 1 demoStore).2 = false := by
  exact ⟨rfl, rfl, rfl, rfl⟩

end CompanyData
